import Mathlib

/-!
# Verification of the BrowserForensics extraction core

A shallow embedding of `BrowserForensics.py`: the timestamp converters
(`chrome_time_to_datetime`, `firefox_time_to_datetime`), the schema detector
(`detect_browser`), and the two extractors (`parse_chromium`, `parse_firefox`),
together with proofs of the specified properties.

Modelling conventions:
* SQLite rows are records of `Option`-typed columns (`none` = SQL NULL); a whole
  table is `Option (List Row)`, where `none` models the table being absent, i.e.
  the source's `sqlite3.Error` on that pass's query.
* Python values flowing into the output records are modelled by `PyVal`
  (None / bool / int / str).  Python truthiness is `PyVal.truthy`.
* CPython's `datetime.utcfromtimestamp((t - offset)/1_000_000)` is modelled by
  exact integer arithmetic: the displayed instant is `(t - offset).fdiv 1000000`
  seconds after the Unix epoch (floor division, as a float division followed by
  `utcfromtimestamp`'s truncation yields for every instant representable
  exactly in a double).  `utcfromtimestamp` raises outside the `datetime`
  year range 1..9999, which the source catches and turns into `None`; the
  model returns `none` for those inputs directly.
* `strftime("%-m/%-d/%Y  %-I:%M:%S %p UTC")` (the POSIX branch; the `%#`
  Windows branch has identical semantics) is modelled by `formatUTC`, which
  renders month/day/hour without padding and minutes/seconds zero-padded to
  two digits, using the proleptic Gregorian calendar (`civilFromDaysN`).
* `json.loads` is modelled by `parseMetaObj`, a parser for flat JSON objects
  whose values are null / true / false / integer / string scalars; any other
  document (nested containers, floats) is treated as unparseable, which the
  surrounding code turns into the same defaults as a parse failure.
-/

set_option maxHeartbeats 1000000

/-- A Python value as it appears in an output record cell or a parsed JSON
object: `None`, a bool, an int, or a str. -/
inductive PyVal where
  | vNone : PyVal
  | vBool : Bool → PyVal
  | vInt : Int → PyVal
  | vStr : String → PyVal
deriving DecidableEq

namespace PyVal

/-- Python truthiness of a `PyVal` (`if v:`). -/
def truthy : PyVal → Bool
  | vNone => false
  | vBool b => b
  | vInt n => n != 0
  | vStr s => s ≠ ""

/-- Python `int`-like coercion as used by arithmetic: ints are themselves,
bools are 0 / 1, everything else raises `TypeError`. -/
def toIntLike : PyVal → Option Int
  | vInt n => some n
  | vBool b => some (if b then 1 else 0)
  | _ => none

end PyVal

/-- Lift an optional SQLite text column value into a `PyVal` cell. -/
def ovStr : Option String → PyVal
  | none => PyVal.vNone
  | some s => PyVal.vStr s

/-- Lift an optional SQLite integer column value into a `PyVal` cell. -/
def ovInt : Option Int → PyVal
  | none => PyVal.vNone
  | some n => PyVal.vInt n

/-- An output record: an ordered association list of field name / value pairs,
mirroring a Python dict's insertion order. -/
abbrev Record := List (String × PyVal)

/-- Look up a field of a record by name (first occurrence). -/
def fieldVal (r : Record) (name : String) : Option PyVal :=
  (r.find? (fun p => p.1 == name)).map (fun p => p.2)

/-! ## Proleptic Gregorian calendar

`civilFromDaysN`/`daysFromCivilN` convert between a *shifted* day count
(days since 0000-03-01, i.e. days since the Unix epoch plus 719468) and a
civil date `(year, month, day)`.  Every instant in Python's `datetime` range
(years 1..9999) has a nonnegative shifted day count, so `Nat` suffices. -/

/-- Year of era (0..399) from a day of era (0..146096). -/
def yoeOf (doe : Nat) : Nat :=
  (doe - doe / 1460 + doe / 36524 - doe / 146096) / 365

/-- Day of year (0-based, March-first year) from a day of era. -/
def doyOf (doe : Nat) : Nat :=
  doe - (365 * yoeOf doe + yoeOf doe / 4 - yoeOf doe / 100)

/-- March-based month index (0..11) from a day of year. -/
def mpOf (doy : Nat) : Nat := (5 * doy + 2) / 153

/-- Civil date `(y, m, d)` from a shifted day count. -/
def civilFromDaysN (z : Nat) : Nat × Nat × Nat :=
  let doe := z % 146097
  let doy := doyOf doe
  let mp := mpOf doy
  let d := doy - (153 * mp + 2) / 5 + 1
  let m := if mp < 10 then mp + 3 else mp - 9
  (yoeOf doe + (z / 146097) * 400 + (if m ≤ 2 then 1 else 0), m, d)

/-- Shifted day count from a civil date. -/
def daysFromCivilN (y m d : Nat) : Nat :=
  let y' := y - (if m ≤ 2 then 1 else 0)
  let era := y' / 400
  let yoe := y' % 400
  let mp := (m + 9) % 12
  let doy := (153 * mp + 2) / 5 + d - 1
  let doe := 365 * yoe + yoe / 4 - yoe / 100 + doy
  era * 146097 + doe

theorem yoeOf_spec (doe : Nat) (h : doe ≤ 146096) :
    yoeOf doe ≤ 399 ∧
    365 * yoeOf doe + yoeOf doe / 4 - yoeOf doe / 100 ≤ doe ∧
    doe - (365 * yoeOf doe + yoeOf doe / 4 - yoeOf doe / 100) ≤ 365 := by
  unfold yoeOf
  set y := (doe - doe / 1460 + doe / 36524 - doe / 146096) / 365 with hy
  set q := y / 100 with hq
  set r := y % 4 with hr
  have hqb : q ≤ 4 := by omega
  have hrb : r ≤ 3 := by omega
  clear_value q r
  interval_cases q <;> interval_cases r <;> omega

theorem mpOf_spec (doy : Nat) (h : doy ≤ 365) :
    mpOf doy ≤ 11 ∧ (153 * mpOf doy + 2) / 5 ≤ doy ∧
    doy - (153 * mpOf doy + 2) / 5 ≤ 30 := by
  unfold mpOf
  omega

theorem daysFromCivil_helper (era yoe doy mp dd doe z : Nat)
    (hyoe : yoe ≤ 399) (hmp : mp ≤ 11) (hdd : (153 * mp + 2) / 5 + dd = doy)
    (hfd : 365 * yoe + yoe / 4 - yoe / 100 ≤ doe)
    (hdoy : doy = doe - (365 * yoe + yoe / 4 - yoe / 100))
    (hz : z = era * 146097 + doe) (hdoe : doe ≤ 146096) :
    daysFromCivilN (yoe + era * 400 + (if (if mp < 10 then mp + 3 else mp - 9) ≤ 2 then 1 else 0))
        (if mp < 10 then mp + 3 else mp - 9)
        (dd + 1) = z := by
  unfold daysFromCivilN
  simp only []
  rw [show ∀ x y : Nat, x + (y + 1) - 1 = x + y from fun x y => by omega]
  rcases Nat.lt_or_ge mp 10 with hmp10 | hmp10
  · rw [if_pos hmp10, if_neg (show ¬ mp + 3 ≤ 2 by omega)]
    simp only [Nat.add_zero, Nat.sub_zero]
    rw [Nat.add_mul_div_right _ _ (show 0 < 400 by norm_num),
      Nat.div_eq_of_lt (show yoe < 400 by omega),
      Nat.add_mul_mod_self_right,
      Nat.mod_eq_of_lt (show yoe < 400 by omega),
      show mp + 3 + 9 = mp + 12 from by omega,
      Nat.add_mod_right,
      Nat.mod_eq_of_lt (show mp < 12 by omega)]
    omega
  · rw [if_neg (show ¬ mp < 10 by omega), if_pos (show mp - 9 ≤ 2 by omega)]
    simp only [Nat.add_sub_cancel]
    rw [Nat.add_mul_div_right _ _ (show 0 < 400 by norm_num),
      Nat.div_eq_of_lt (show yoe < 400 by omega),
      Nat.add_mul_mod_self_right,
      Nat.mod_eq_of_lt (show yoe < 400 by omega),
      Nat.sub_add_cancel (show 9 ≤ mp by omega),
      Nat.mod_eq_of_lt (show mp < 12 by omega)]
    omega

/-- The two calendar conversions are mutually inverse on shifted day counts. -/
theorem daysFromCivilN_civilFromDaysN (z : Nat) :
    daysFromCivilN (civilFromDaysN z).1 (civilFromDaysN z).2.1 (civilFromDaysN z).2.2 = z := by
  have h1 := yoeOf_spec (z % 146097) (by omega)
  have h2 : doyOf (z % 146097) ≤ 365 := by unfold doyOf; omega
  have h3 := mpOf_spec (doyOf (z % 146097)) h2
  show daysFromCivilN
      (yoeOf (z % 146097) + (z / 146097) * 400 + _) _ _ = z
  exact daysFromCivil_helper (z / 146097) (yoeOf (z % 146097)) (doyOf (z % 146097))
    (mpOf (doyOf (z % 146097)))
    (doyOf (z % 146097) - (153 * mpOf (doyOf (z % 146097)) + 2) / 5) (z % 146097) z
    h1.1 h3.1 (by omega) h1.2.1
    (by unfold doyOf; rfl) (by omega) (by omega)

/-! ## Decimal rendering and reading -/

/-- The decimal digit character for `n` (0..9). -/
def digitChar10 (n : Nat) : Char :=
  match n with
  | 0 => '0' | 1 => '1' | 2 => '2' | 3 => '3' | 4 => '4'
  | 5 => '5' | 6 => '6' | 7 => '7' | 8 => '8' | _ => '9'

/-- Decimal digits, fuelled so that the recursion is structural (and hence
reducible inside the kernel); the fuel is always ample. -/
def natDecAux : Nat → Nat → List Char
  | 0, _ => []
  | fuel + 1, n =>
    if n < 10 then [digitChar10 n]
    else natDecAux fuel (n / 10) ++ [digitChar10 (n % 10)]

/-- Decimal digits of `n`, most significant first, no leading zeros
(the rendering of `%-m`, `%-d`, `%Y`, `%-I`). -/
def natDec (n : Nat) : List Char := natDecAux (n + 1) n

/-- Two-digit zero-padded decimal rendering (`%M`, `%S`). -/
def two (n : Nat) : List Char :=
  if n < 10 then '0' :: natDec n else natDec n

/-- Numeric value of a digit string (no sign, no validation). -/
def decNat (l : List Char) : Nat :=
  l.foldl (fun a c => 10 * a + (c.toNat - 48)) 0

theorem digitChar10_toNat (n : Nat) (h : n < 10) : (digitChar10 n).toNat = 48 + n := by
  interval_cases n <;> rfl

theorem digitChar10_isDigit (n : Nat) (h : n < 10) : (digitChar10 n).isDigit = true := by
  interval_cases n <;> rfl

theorem natDecAux_spec : ∀ (fuel n : Nat), n < fuel →
    natDecAux fuel n ≠ [] ∧ (∀ c ∈ natDecAux fuel n, c.isDigit = true) ∧
    decNat (natDecAux fuel n) = n := by
  intro fuel
  induction fuel with
  | zero => omega
  | succ fuel ih =>
    intro n hn
    rw [natDecAux]
    split
    · next h =>
      refine ⟨by simp, ?_, ?_⟩
      · intro c hc
        simp at hc
        subst hc
        exact digitChar10_isDigit n h
      · simp [decNat, digitChar10_toNat n h]
    · next h =>
      have hrec := ih (n / 10) (by omega)
      refine ⟨by simp, ?_, ?_⟩
      · intro c hc
        simp at hc
        rcases hc with hc | hc
        · exact hrec.2.1 c hc
        · subst hc
          exact digitChar10_isDigit (n % 10) (Nat.mod_lt _ (by norm_num))
      · rw [decNat, List.foldl_append]
        rw [show List.foldl (fun a c => 10 * a + (c.toNat - 48)) 0 (natDecAux fuel (n / 10)) =
            decNat (natDecAux fuel (n / 10)) from rfl]
        rw [hrec.2.2]
        simp [digitChar10_toNat (n % 10) (Nat.mod_lt _ (by norm_num))]
        omega

theorem natDec_ne_nil (n : Nat) : natDec n ≠ [] :=
  (natDecAux_spec (n + 1) n (by omega)).1

theorem natDec_all_digits (n : Nat) : ∀ c ∈ natDec n, c.isDigit = true :=
  (natDecAux_spec (n + 1) n (by omega)).2.1

theorem two_all_digits (n : Nat) : ∀ c ∈ two n, c.isDigit = true := by
  unfold two
  split
  · intro c hc
    simp at hc
    rcases hc with hc | hc
    · subst hc; rfl
    · exact natDec_all_digits n c hc
  · exact natDec_all_digits n

theorem decNat_natDec (n : Nat) : decNat (natDec n) = n :=
  (natDecAux_spec (n + 1) n (by omega)).2.2

theorem decNat_two (n : Nat) : decNat (two n) = n := by
  unfold two
  split
  · show decNat ('0' :: natDec n) = n
    rw [decNat, List.foldl_cons]
    show List.foldl (fun a c => 10 * a + (c.toNat - 48)) (10 * 0 + ('0'.toNat - 48)) (natDec n) = n
    rw [show 10 * 0 + ('0'.toNat - 48) = 0 from rfl]
    exact decNat_natDec n
  · exact decNat_natDec n


/-! ## The normalized display format and a parser for it -/

/-- Tokenize a character list into maximal digit runs (read as numbers) and
individual non-digit characters.  `acc` carries the digit run in progress. -/
def toksAux : List Char → Option Nat → List (Sum Nat Char)
  | [], none => []
  | [], some n => [Sum.inl n]
  | c :: cs, acc =>
    if c.isDigit then toksAux cs (some (10 * acc.getD 0 + (c.toNat - 48)))
    else match acc with
      | none => Sum.inr c :: toksAux cs none
      | some n => Sum.inl n :: Sum.inr c :: toksAux cs none

/-- Tokenize a character list. -/
def toks (l : List Char) : List (Sum Nat Char) := toksAux l none

/-- Render an epoch-seconds instant (valid for years 1..9999, i.e.
`-62135596800 ≤ s ≤ 253402300799`) in the source's display format
`%-m/%-d/%Y  %-I:%M:%S %p UTC`. -/
def formatUTC (s : Int) : String :=
  let total : Nat := (s + 62135596800).toNat
  let z := 306 + total / 86400
  let c := civilFromDaysN z
  let sod := total % 86400
  let hr := sod / 3600
  let mi := sod % 3600 / 60
  let se := sod % 60
  let h12 := if hr % 12 = 0 then 12 else hr % 12
  String.mk
    (natDec c.2.1 ++ ('/' :: (natDec c.2.2 ++ ('/' :: (natDec c.1 ++ (' ' :: ' ' ::
      (natDec h12 ++ (':' :: (two mi ++ (':' :: (two se ++ (' ' ::
        (if 12 ≤ hr then 'P' else 'A') :: 'M' :: ' ' :: 'U' :: 'T' :: 'C' :: []))))))))))))

/-- Parse a string in the display format back to epoch seconds: read the six
numeric fields and the AM/PM marker, rebuild the 24-hour clock, and count
seconds from the Unix epoch through the civil calendar. -/
def parseFormatted (str : String) : Option Int :=
  match toks str.data with
  | [Sum.inl m, Sum.inr '/', Sum.inl d, Sum.inr '/', Sum.inl y,
     Sum.inr ' ', Sum.inr ' ', Sum.inl h12, Sum.inr ':', Sum.inl mi,
     Sum.inr ':', Sum.inl se, Sum.inr ' ', Sum.inr ap, Sum.inr 'M',
     Sum.inr ' ', Sum.inr 'U', Sum.inr 'T', Sum.inr 'C'] =>
    if ap = 'A' ∨ ap = 'P' then
      let hr : Nat := if ap = 'P' then (if h12 = 12 then 12 else h12 + 12)
        else (if h12 = 12 then 0 else h12)
      some (((daysFromCivilN y m d : Int) - 719468) * 86400 +
        (hr * 3600 + mi * 60 + se))
    else none
  | _ => none

theorem toksAux_digits (D : List Char) (hD : ∀ x ∈ D, x.isDigit = true)
    (c : Char) (hc : c.isDigit = false) (l : List Char) (a : Nat) :
    toksAux (D ++ c :: l) (some a) =
      Sum.inl (D.foldl (fun x y => 10 * x + (y.toNat - 48)) a) ::
        Sum.inr c :: toksAux l none := by
  induction D generalizing a with
  | nil => simp [toksAux, hc]
  | cons d D ih =>
    have hd : d.isDigit = true := hD d (by simp)
    simp only [List.cons_append, toksAux, hd, if_true, Option.getD, List.append_eq]
    rw [ih (fun x hx => hD x (by simp [hx]))]
    simp

theorem toks_natDec_cons (n : Nat) (c : Char) (hc : c.isDigit = false) (l : List Char) :
    toksAux (natDec n ++ c :: l) none =
      Sum.inl n :: Sum.inr c :: toksAux l none := by
  cases hD : natDec n with
  | nil => exact absurd hD (natDec_ne_nil n)
  | cons d D =>
    have hdig : ∀ x ∈ natDec n, x.isDigit = true := natDec_all_digits n
    rw [hD] at hdig
    have hd : d.isDigit = true := hdig d (by simp)
    simp only [List.cons_append, toksAux, hd, if_true, Option.getD, List.append_eq]
    rw [toksAux_digits D (fun x hx => hdig x (by simp [hx])) c hc l _]
    have : (d :: D).foldl (fun x y => 10 * x + (y.toNat - 48)) 0 = n := by
      rw [← hD]
      exact decNat_natDec n
    simp only [List.foldl_cons] at this
    simpa using this

theorem toks_two_cons (n : Nat) (c : Char) (hc : c.isDigit = false) (l : List Char) :
    toksAux (two n ++ c :: l) none =
      Sum.inl n :: Sum.inr c :: toksAux l none := by
  cases hD : two n with
  | nil =>
    exfalso
    unfold two at hD
    split at hD
    · simp at hD
    · exact natDec_ne_nil n hD
  | cons d D =>
    have hdig : ∀ x ∈ two n, x.isDigit = true := two_all_digits n
    rw [hD] at hdig
    have hd : d.isDigit = true := hdig d (by simp)
    simp only [List.cons_append, toksAux, hd, if_true, Option.getD, List.append_eq]
    rw [toksAux_digits D (fun x hx => hdig x (by simp [hx])) c hc l _]
    have : (d :: D).foldl (fun x y => 10 * x + (y.toNat - 48)) 0 = n := by
      rw [← hD]
      exact decNat_two n
    simp only [List.foldl_cons] at this
    simpa using this

theorem toksAux_sep (c : Char) (hc : c.isDigit = false) (l : List Char) :
    toksAux (c :: l) none = Sum.inr c :: toksAux l none := by
  simp [toksAux, hc]

/-- Stepping the parser over a well-formed display string. -/
theorem parseFormatted_mk (M D Y H MI SE : Nat) (p : Prop) [Decidable p] :
    parseFormatted (String.mk
      (natDec M ++ ('/' :: (natDec D ++ ('/' :: (natDec Y ++ (' ' :: ' ' ::
        (natDec H ++ (':' :: (two MI ++ (':' :: (two SE ++ (' ' ::
          (if p then 'P' else 'A') :: 'M' :: ' ' :: 'U' :: 'T' :: 'C' :: [])))))))))))))
    = some (((daysFromCivilN Y M D : Int) - 719468) * 86400 +
        ((if p then (if H = 12 then 12 else H + 12)
          else (if H = 12 then 0 else H)) * 3600 + MI * 60 + SE)) := by
  have hsl : ('/' : Char).isDigit = false := by decide
  have hsp : (' ' : Char).isDigit = false := by decide
  have hco : (':' : Char).isDigit = false := by decide
  by_cases hp : p
  · rw [if_pos hp, if_pos hp]
    unfold parseFormatted toks
    dsimp only
    rw [toks_natDec_cons M '/' hsl, toks_natDec_cons D '/' hsl,
      toks_natDec_cons Y ' ' hsp, toksAux_sep ' ' hsp,
      toks_natDec_cons H ':' hco, toks_two_cons MI ':' hco,
      toks_two_cons SE ' ' hsp,
      show toksAux ('P' :: 'M' :: ' ' :: 'U' :: 'T' :: 'C' :: []) none =
        [Sum.inr 'P', Sum.inr 'M', Sum.inr ' ', Sum.inr 'U', Sum.inr 'T', Sum.inr 'C']
        from by decide]
    exact rfl
  · rw [if_neg hp, if_neg hp]
    unfold parseFormatted toks
    dsimp only
    rw [toks_natDec_cons M '/' hsl, toks_natDec_cons D '/' hsl,
      toks_natDec_cons Y ' ' hsp, toksAux_sep ' ' hsp,
      toks_natDec_cons H ':' hco, toks_two_cons MI ':' hco,
      toks_two_cons SE ' ' hsp,
      show toksAux ('A' :: 'M' :: ' ' :: 'U' :: 'T' :: 'C' :: []) none =
        [Sum.inr 'A', Sum.inr 'M', Sum.inr ' ', Sum.inr 'U', Sum.inr 'T', Sum.inr 'C']
        from by decide]
    exact rfl

/-- Parsing a formatted in-range instant recovers it exactly (to the second). -/
theorem parseFormatted_formatUTC (s : Int)
    (h1 : -62135596800 <= s) (h2 : s <= 253402300799) :
    parseFormatted (formatUTC s) = some s := by
  unfold formatUTC
  simp only []
  rw [parseFormatted_mk]
  rw [daysFromCivilN_civilFromDaysN]
  simp only [Option.some.injEq]
  have htot : (((s + 62135596800).toNat : Int)) = s + 62135596800 :=
    Int.toNat_of_nonneg (by omega)
  split_ifs <;> push_cast <;> omega

/-! ## Timestamp converters -/

/-- Chrome/Edge/Brave timestamp offset (microseconds since 1601-01-01 UTC). -/
def BROWSER_TIME_OFFSET_MICROSECONDS : Int := 11644473600000000

/-- Firefox timestamp divisor (microseconds per second). -/
def FIREFOX_TIME_DIVISOR : Int := 1000000

/-- `datetime.utcfromtimestamp` followed by the display `strftime`, at
second granularity: `none` for instants outside `datetime`'s year range
1..9999 (`OverflowError`/`ValueError`, caught by the source's `except`). -/
def utcfromtimestampFmt (secs : Int) : Option String :=
  if -62135596800 ≤ secs ∧ secs ≤ 253402300799 then some (formatUTC secs) else none

/-- `chrome_time_to_datetime`: falsy input yields `None`; otherwise subtract
the 1601 offset, divide by 1e6 and format, with any failure (non-numeric
input, out-of-range instant) yielding `None`. -/
def chrome_time_to_datetime (chrome_time : PyVal) : Option String :=
  if chrome_time.truthy then
    match chrome_time.toIntLike with
    | some n => utcfromtimestampFmt ((n - BROWSER_TIME_OFFSET_MICROSECONDS).fdiv 1000000)
    | none => none
  else none

/-- `firefox_time_to_datetime`: falsy input yields `None`; otherwise divide
by 1e6 and format, with any failure yielding `None`. -/
def firefox_time_to_datetime (firefox_time : PyVal) : Option String :=
  if firefox_time.truthy then
    match firefox_time.toIntLike with
    | some n => utcfromtimestampFmt (n.fdiv FIREFOX_TIME_DIVISOR)
    | none => none
  else none

/-! ## Schema detection -/

/-- `detect_browser`: classify by the set of table names present
(`sqlite_master`).  Chromium is checked first, so it wins when both
layouts' tables are present. -/
def detect_browser (tables : List String) : Option String :=
  if "urls" ∈ tables ∧ "visits" ∈ tables then some "chromium"
  else if "moz_places" ∈ tables ∧ "moz_historyvisits" ∈ tables then some "firefox"
  else none

/-! ## Python string replace -/

/-- Does `pat` start `l`? -/
def startsWith : List Char → List Char → Bool
  | [], _ => true
  | _ :: _, [] => false
  | p :: ps, c :: cs => p == c && startsWith ps cs

theorem startsWith_length (pat l : List Char) (h : startsWith pat l = true) :
    pat.length ≤ l.length := by
  induction pat generalizing l with
  | nil => simp
  | cons p ps ih =>
    cases l with
    | nil => simp [startsWith] at h
    | cons c cs =>
      simp only [startsWith, Bool.and_eq_true] at h
      have := ih cs h.2
      simp [List.length]
      omega

/-- Python `str.replace` on character lists, fuelled so that the recursion
is structural: replace every non-overlapping occurrence of `pat`, scanning
left to right.  Each step consumes at least one character of `l` (`pat` is
nonempty when it matches), so fuel `l.length + 1` is always ample. -/
def pyReplaceAux (pat repl : List Char) : Nat → List Char → List Char
  | 0, l => l
  | fuel + 1, l =>
    if pat.length = 0 then l
    else if startsWith pat l = true then
      repl ++ pyReplaceAux pat repl fuel (l.drop pat.length)
    else
      match l with
      | [] => []
      | c :: cs => c :: pyReplaceAux pat repl fuel cs

/-- Python `str.replace` (all occurrences). -/
def pyReplace (s pat repl : String) : String :=
  String.mk (pyReplaceAux pat.data repl.data (s.data.length + 1) s.data)

/-- The spec's reading of the path normalization: strip one *leading*
`file://` prefix only (for comparison against the source's replace-all). -/
def stripLeadingFileURI (s : String) : String :=
  if startsWith ("file://".data) s.data = true then String.mk (s.data.drop 7) else s

/-! ## JSON metadata parsing (`json.loads` on flat scalar objects) -/

/-- JSON whitespace. -/
def jWs (c : Char) : Bool := c == ' ' || c == '\t' || c == '\n' || c == '\r'

/-- Drop leading JSON whitespace. -/
def skipWs (l : List Char) : List Char := l.dropWhile jWs

/-- Parse a JSON string body (after the opening quote) up to the closing
quote, handling the single-character escapes; `\u` escapes and raw control
characters make the document unparseable in this model. -/
def parseJStrAux : Nat → List Char → Option (String × List Char)
  | 0, _ => none
  | _, [] => none
  | _ + 1, '"' :: r => some ("", r)
  | fuel + 1, '\\' :: e :: r =>
    match (match e with
      | '"' => some '"'
      | '\\' => some '\\'
      | '/' => some '/'
      | 'n' => some '\n'
      | 't' => some '\t'
      | 'r' => some '\r'
      | 'b' => some (Char.ofNat 8)
      | 'f' => some (Char.ofNat 12)
      | _ => none) with
    | some c =>
      match parseJStrAux fuel r with
      | some (s, rest) => some (⟨c :: s.data⟩, rest)
      | none => none
    | none => none
  | fuel + 1, c :: r =>
    if c.toNat < 32 then none
    else
      match parseJStrAux fuel r with
      | some (s, rest) => some (⟨c :: s.data⟩, rest)
      | none => none

/-- Parse a JSON string body (after the opening quote). -/
def parseJStr (l : List Char) : Option (String × List Char) :=
  parseJStrAux (l.length + 1) l


/-- Parse a JSON scalar (null / true / false / integer / string). -/
def parseScalar (l : List Char) : Option (PyVal × List Char) :=
  match l with
  | 'n' :: 'u' :: 'l' :: 'l' :: r => some (PyVal.vNone, r)
  | 't' :: 'r' :: 'u' :: 'e' :: r => some (PyVal.vBool true, r)
  | 'f' :: 'a' :: 'l' :: 's' :: 'e' :: r => some (PyVal.vBool false, r)
  | '"' :: r =>
    match parseJStr r with
    | some (s, rest) => some (PyVal.vStr s, rest)
    | none => none
  | '-' :: c :: r =>
    if c.isDigit then
      some (PyVal.vInt (-(decNat ((c :: r).takeWhile Char.isDigit) : Int)),
        (c :: r).dropWhile Char.isDigit)
    else none
  | c :: r =>
    if c.isDigit then
      some (PyVal.vInt (decNat ((c :: r).takeWhile Char.isDigit) : Int),
        (c :: r).dropWhile Char.isDigit)
    else none
  | [] => none

/-- Parse `"key": scalar` pairs separated by commas, up to the closing
brace.  Fuelled recursion; the fuel is always ample. -/
def parsePairs : Nat → List Char → Option (List (String × PyVal) × List Char)
  | 0, _ => none
  | fuel + 1, l =>
    match skipWs l with
    | '"' :: r =>
      match parseJStr r with
      | some (k, r1) =>
        match skipWs r1 with
        | ':' :: r2 =>
          match parseScalar (skipWs r2) with
          | some (v, r3) =>
            match skipWs r3 with
            | ',' :: r4 =>
              match parsePairs fuel r4 with
              | some (kvs, rest) => some ((k, v) :: kvs, rest)
              | none => none
            | '}' :: r4 => some ([(k, v)], r4)
            | _ => none
          | none => none
        | _ => none
      | none => none
    | _ => none

/-- `json.loads` for a flat object of scalars; any other document is
unparseable in this model (and the source treats a parse failure and an
unexpected document shape identically: the affected fields keep their
defaults). -/
def parseMetaObj (s : String) : Option (List (String × PyVal)) :=
  match skipWs s.data with
  | '{' :: r =>
    match skipWs r with
    | '}' :: r2 => if (skipWs r2).isEmpty then some [] else none
    | _ =>
      match parsePairs (s.data.length + 1) r with
      | some (kvs, rest) => if (skipWs rest).isEmpty then some kvs else none
      | none => none
  | _ => none

/-- Python `dict.get` with default, where the dict was built by inserting
the object's pairs in order (so a duplicated key keeps its last value). -/
def dictGet (kvs : List (String × PyVal)) (k : String) (dflt : PyVal) : PyVal :=
  match kvs.reverse.find? (fun p => p.1 == k) with
  | some p => p.2
  | none => dflt

/-! ## Sorting (`ORDER BY ... DESC`) -/

/-- Insert into a sorted list with respect to the boolean relation `r`
(`r a b` = "`a` may precede `b`"). -/
def insertBy {α : Type} (r : α → α → Bool) (a : α) : List α → List α
  | [] => [a]
  | b :: l => if r a b then a :: b :: l else b :: insertBy r a l

/-- Insertion sort with respect to `r`. -/
def sortBy {α : Type} (r : α → α → Bool) : List α → List α
  | [] => []
  | a :: l => insertBy r a (sortBy r l)

theorem mem_insertBy {α : Type} (r : α → α → Bool) (a : α) (l : List α) :
    ∀ x ∈ insertBy r a l, x = a ∨ x ∈ l := by
  induction l with
  | nil => simp [insertBy]
  | cons b l ih =>
    intro x hx
    simp only [insertBy] at hx
    split at hx
    · simp at hx
      rcases hx with hx | hx | hx
      · exact Or.inl hx
      · exact Or.inr (by simp [hx])
      · exact Or.inr (by simp [hx])
    · simp at hx
      rcases hx with hx | hx
      · simp [hx]
      · rcases ih x hx with hx' | hx' <;> simp [hx']

theorem pairwise_insertBy {α : Type} (r : α → α → Bool)
    (htot : ∀ a b, r a b = true ∨ r b a = true)
    (htrans : ∀ x y z, r x y = true → r y z = true → r x z = true)
    (a : α) (l : List α) (hl : l.Pairwise (fun x y => r x y = true)) :
    (insertBy r a l).Pairwise (fun x y => r x y = true) := by
  induction l with
  | nil => simp [insertBy]
  | cons b l ih =>
    simp only [insertBy]
    rcases List.pairwise_cons.mp hl with ⟨hb, hl'⟩
    split
    · next hr =>
      refine List.pairwise_cons.mpr ⟨?_, hl⟩
      intro x hx
      simp at hx
      rcases hx with hx | hx
      · simp [hx, hr]
      · exact htrans a b x hr (hb x hx)
    · next hr =>
      refine List.pairwise_cons.mpr ⟨?_, ih hl'⟩
      intro x hx
      rcases mem_insertBy r a l x hx with hx' | hx'
      · rw [hx']
        rcases htot a b with h | h
        · exact absurd h hr
        · exact h
      · exact hb x hx'

theorem pairwise_sortBy {α : Type} (r : α → α → Bool)
    (htot : ∀ a b, r a b = true ∨ r b a = true)
    (htrans : ∀ x y z, r x y = true → r y z = true → r x z = true)
    (l : List α) : (sortBy r l).Pairwise (fun x y => r x y = true) := by
  induction l with
  | nil => simp [sortBy]
  | cons a l ih => exact pairwise_insertBy r htot htrans a (sortBy r l) ih

/-- `ORDER BY key DESC` comparison on a nullable integer column: larger keys
first, NULLs last. -/
def oge : Option Int → Option Int → Bool
  | _, none => true
  | none, some _ => false
  | some a, some b => b ≤ a

theorem oge_total (a b : Option Int) : oge a b = true ∨ oge b a = true := by
  cases a <;> cases b <;> simp [oge] <;> omega

theorem oge_trans (a b c : Option Int) (h1 : oge a b = true) (h2 : oge b c = true) :
    oge a c = true := by
  cases a <;> cases b <;> cases c <;> simp [oge] at * <;> omega

/-! ## Chromium database model and extractor -/

/-- A row of the Chromium `urls` table (selected columns). -/
structure UrlRow where
  id : Int
  url : Option String
  title : Option String
  visit_count : Option Int
  last_visit_time : Option Int

/-- A row of the Chromium `visits` table (selected columns). -/
structure VisitRow where
  url : Int
  visit_time : Option Int

/-- A row of the Chromium `downloads` table (selected columns). -/
structure DownloadRow where
  current_path : Option String
  target_path : Option String
  start_time : Option Int
  total_bytes : Option Int
  tab_url : Option String
  tab_referrer_url : Option String

/-- A Chromium-layout artifact.  `none` for a table models its absence, i.e.
the `sqlite3.Error` the corresponding query would raise. -/
structure ChromiumDb where
  urls : Option (List UrlRow)
  visits : Option (List VisitRow)
  downloads : Option (List DownloadRow)

/-- Python `a or b` on two nullable text column values. -/
def pyOr (a b : Option String) : PyVal :=
  match a with
  | some s => if s ≠ "" then PyVal.vStr s else ovStr b
  | none => ovStr b

/-- The record built for one row of the Chromium history query. -/
def chromiumVisitRecord (u : UrlRow) (v : VisitRow) : Record :=
  [("Type", PyVal.vStr "Visit"),
   ("URL", ovStr u.url),
   ("Title", ovStr u.title),
   ("Visit Count", ovInt u.visit_count),
   ("Last Visit (UTC)", ovStr (chrome_time_to_datetime (ovInt u.last_visit_time))),
   ("Visit Time (UTC)", ovStr (chrome_time_to_datetime (ovInt v.visit_time))),
   ("Download Path", PyVal.vStr ""),
   ("Download Size (bytes)", PyVal.vStr ""),
   ("Referrer", PyVal.vStr "")]

/-- The record built for one row of the Chromium downloads query. -/
def chromiumDownloadRecord (d : DownloadRow) : Record :=
  [("Type", PyVal.vStr "Download"),
   ("URL", ovStr d.tab_url),
   ("Title", PyVal.vStr ""),
   ("Visit Count", PyVal.vStr ""),
   ("Last Visit (UTC)", PyVal.vStr ""),
   ("Visit Time (UTC)", ovStr (chrome_time_to_datetime (ovInt d.start_time))),
   ("Download Path", pyOr d.target_path d.current_path),
   ("Download Size (bytes)", ovInt d.total_bytes),
   ("Referrer", ovStr d.tab_referrer_url)]

/-- The result rows of `SELECT ... FROM urls, visits WHERE urls.id =
visits.url ORDER BY visits.visit_time DESC`. -/
def chromiumHistoryRows (db : ChromiumDb) : List (UrlRow × VisitRow) :=
  match db.urls, db.visits with
  | some us, some vs =>
    sortBy (fun a b => oge a.2.visit_time b.2.visit_time)
      (us.flatMap (fun u => (vs.filter (fun v => v.url == u.id)).map (fun v => (u, v))))
  | _, _ => []

/-- The Chromium browsing-history pass. -/
def chromiumHistoryPass (db : ChromiumDb) : List Record :=
  (chromiumHistoryRows db).map (fun p => chromiumVisitRecord p.1 p.2)

/-- The Chromium downloads pass. -/
def chromiumDownloadsPass (db : ChromiumDb) : List Record :=
  match db.downloads with
  | some ds => ds.map chromiumDownloadRecord
  | none => []

/-- `parse_chromium`: history pass then downloads pass, each contributing
nothing when its table is absent. -/
def parse_chromium (db : ChromiumDb) : List Record :=
  chromiumHistoryPass db ++ chromiumDownloadsPass db

/-! ## Firefox database model and extractor -/

/-- A row of `moz_places` (selected columns). -/
structure PlaceRow where
  id : Int
  url : Option String
  title : Option String
  visit_count : Option Int
  last_visit_date : Option Int

/-- A row of `moz_historyvisits` (selected columns). -/
structure HistVisitRow where
  place_id : Int
  visit_date : Option Int

/-- A row of the legacy `moz_downloads` table (selected columns). -/
structure MozDownloadRow where
  target : Option String
  startTime : Option Int
  totalBytes : Option Int
  source : Option String

/-- A row of `moz_annos`. -/
structure AnnoRow where
  place_id : Int
  anno_attribute_id : Int
  content : Option String

/-- A row of `moz_anno_attributes`. -/
structure AnnoAttrRow where
  id : Int
  name : Option String

/-- A Firefox-layout artifact; `none` tables model absence / query failure. -/
structure FirefoxDb where
  moz_places : Option (List PlaceRow)
  moz_historyvisits : Option (List HistVisitRow)
  moz_downloads : Option (List MozDownloadRow)
  moz_annos : Option (List AnnoRow)
  moz_anno_attributes : Option (List AnnoAttrRow)

/-- The record built for one row of the Firefox history query. -/
def firefoxVisitRecord (p : PlaceRow) (v : HistVisitRow) : Record :=
  [("Type", PyVal.vStr "Visit"),
   ("URL", ovStr p.url),
   ("Title", ovStr p.title),
   ("Visit Count", ovInt p.visit_count),
   ("Last Visit (UTC)", ovStr (firefox_time_to_datetime (ovInt p.last_visit_date))),
   ("Visit Time (UTC)", ovStr (firefox_time_to_datetime (ovInt v.visit_date))),
   ("Download Path", PyVal.vStr ""),
   ("Download Size (bytes)", PyVal.vStr ""),
   ("Referrer", PyVal.vStr "")]

/-- The record built for one row of the legacy downloads query. -/
def firefoxLegacyRecord (d : MozDownloadRow) : Record :=
  [("Type", PyVal.vStr "Download"),
   ("URL", ovStr d.source),
   ("Title", PyVal.vStr ""),
   ("Visit Count", PyVal.vStr ""),
   ("Last Visit (UTC)", PyVal.vStr ""),
   ("Visit Time (UTC)", ovStr (firefox_time_to_datetime (ovInt d.startTime))),
   ("Download Path", ovStr d.target),
   ("Download Size (bytes)", ovInt d.totalBytes),
   ("Referrer", PyVal.vStr "")]

/-- The result rows of the Firefox history join, ordered by visit date
descending. -/
def firefoxHistoryRows (db : FirefoxDb) : List (PlaceRow × HistVisitRow) :=
  match db.moz_places, db.moz_historyvisits with
  | some ps, some vs =>
    sortBy (fun a b => oge a.2.visit_date b.2.visit_date)
      (ps.flatMap (fun p => (vs.filter (fun v => v.place_id == p.id)).map (fun v => (p, v))))
  | _, _ => []

/-- The Firefox history pass. -/
def firefoxHistoryPass (db : FirefoxDb) : List Record :=
  (firefoxHistoryRows db).map (fun p => firefoxVisitRecord p.1 p.2)

/-- The Firefox legacy downloads pass. -/
def firefoxLegacyPass (db : FirefoxDb) : List Record :=
  match db.moz_downloads with
  | some ds => ds.map firefoxLegacyRecord
  | none => []

/-- One result row of the modern annotation-based downloads query. -/
structure ModernRow where
  source_url : Option String
  target_path : Option String
  meta_json : Option String
deriving DecidableEq

/-- SQL `LEFT JOIN ... ON pred`: the matching rows, or a single NULL row
when there is none. -/
def leftJoinList {β : Type} (l : List β) (pred : β → Bool) : List (Option β) :=
  match l.filter pred with
  | [] => [none]
  | ms => ms.map some

/-- The result rows of the modern downloads query: `moz_places` inner-joined
to the destination-URI annotation (with its attribute-name condition from
the WHERE clause), left-joined to the candidate metadata annotation rows and
their attribute rows, then filtered by the WHERE condition
`a_meta.name = 'downloads/metaData'` (false on a NULL left-join result). -/
def firefoxModernRows (db : FirefoxDb) : List ModernRow :=
  match db.moz_places, db.moz_annos, db.moz_anno_attributes with
  | some ps, some annos, some attrs =>
    ps.flatMap (fun p =>
      (annos.filter (fun a => a.place_id == p.id)).flatMap (fun dfile =>
        (attrs.filter (fun t => t.id == dfile.anno_attribute_id &&
            t.name == some "downloads/destinationFileURI")).flatMap (fun _afile =>
          (leftJoinList annos (fun a => a.place_id == p.id)).flatMap (fun dmetaOpt =>
            (match dmetaOpt with
              | none => [(none : Option AnnoAttrRow)]
              | some dmeta => leftJoinList attrs
                  (fun t => t.id == dmeta.anno_attribute_id)).flatMap (fun ametaOpt =>
              if (match ametaOpt with
                  | some ameta => ameta.name == some "downloads/metaData"
                  | none => false)
              then [⟨p.url, dfile.content, dmetaOpt.bind (fun dm => dm.content)⟩]
              else [])))))
  | _, _, _ => []

/-- The same query with the left joins replaced by inner joins: a record
requires both annotations to be present. -/
def firefoxModernRowsInner (db : FirefoxDb) : List ModernRow :=
  match db.moz_places, db.moz_annos, db.moz_anno_attributes with
  | some ps, some annos, some attrs =>
    ps.flatMap (fun p =>
      (annos.filter (fun a => a.place_id == p.id)).flatMap (fun dfile =>
        (attrs.filter (fun t => t.id == dfile.anno_attribute_id &&
            t.name == some "downloads/destinationFileURI")).flatMap (fun _afile =>
          (annos.filter (fun a => a.place_id == p.id)).flatMap (fun dmeta =>
            (attrs.filter (fun t => t.id == dmeta.anno_attribute_id &&
                t.name == some "downloads/metaData")).map (fun _ameta =>
              ⟨p.url, dfile.content, dmeta.content⟩)))))
  | _, _, _ => []

/-- The `total_bytes` / `start_time` pair recovered from the metadata blob:
both fields default (to `""` and `0` respectively, or to `""` outright when
nothing was parsed) whenever the blob is missing, empty, unparseable, or
lacks the corresponding key. -/
def modernMetaFields (meta_json : Option String) : PyVal × PyVal :=
  match meta_json with
  | some s =>
    if s ≠ "" then
      match parseMetaObj s with
      | some kvs => (dictGet kvs "fileSize" (PyVal.vStr ""),
          dictGet kvs "startTime" (PyVal.vInt 0))
      | none => (PyVal.vStr "", PyVal.vStr "")
    else (PyVal.vStr "", PyVal.vStr "")
  | none => (PyVal.vStr "", PyVal.vStr "")

/-- The record built for one row of the modern downloads query: parse the
metadata blob (defaults on failure), convert the start time only when
truthy, strip `file://` from the destination path. -/
def firefoxModernRecord (row : ModernRow) : Record :=
  let tbst : PyVal × PyVal := modernMetaFields row.meta_json
  [("Type", PyVal.vStr "Download"),
   ("URL", ovStr row.source_url),
   ("Title", PyVal.vStr ""),
   ("Visit Count", PyVal.vStr ""),
   ("Last Visit (UTC)", PyVal.vStr ""),
   ("Visit Time (UTC)", if tbst.2.truthy then ovStr (firefox_time_to_datetime tbst.2)
     else PyVal.vStr ""),
   ("Download Path", match row.target_path with
     | some t => if t ≠ "" then PyVal.vStr (pyReplace t "file://" "") else PyVal.vStr ""
     | none => PyVal.vStr ""),
   ("Download Size (bytes)", tbst.1),
   ("Referrer", PyVal.vStr "")]

/-- The Firefox modern downloads pass. -/
def firefoxModernPass (db : FirefoxDb) : List Record :=
  (firefoxModernRows db).map firefoxModernRecord

/-- `parse_firefox`: history, legacy downloads, then modern downloads. -/
def parse_firefox (db : FirefoxDb) : List Record :=
  firefoxHistoryPass db ++ firefoxLegacyPass db ++ firefoxModernPass db

/-! ## Claimed properties -/

/-- The nine output fields, in their fixed order. -/
def fieldNames : List String :=
  ["Type", "URL", "Title", "Visit Count", "Last Visit (UTC)", "Visit Time (UTC)",
   "Download Path", "Download Size (bytes)", "Referrer"]

/-- A record has exactly the nine fields in order, and the fields that are
not meaningful for its `Type` hold the empty string rather than being
omitted. -/
def WellShaped (r : Record) : Prop :=
  r.map Prod.fst = fieldNames ∧
  (fieldVal r "Type" = some (PyVal.vStr "Visit") →
     fieldVal r "Download Path" = some (PyVal.vStr "") ∧
     fieldVal r "Download Size (bytes)" = some (PyVal.vStr "") ∧
     fieldVal r "Referrer" = some (PyVal.vStr "")) ∧
  (fieldVal r "Type" = some (PyVal.vStr "Download") →
     fieldVal r "Title" = some (PyVal.vStr "") ∧
     fieldVal r "Visit Count" = some (PyVal.vStr "") ∧
     fieldVal r "Last Visit (UTC)" = some (PyVal.vStr ""))

theorem wellShaped_chromiumVisitRecord (u : UrlRow) (v : VisitRow) :
    WellShaped (chromiumVisitRecord u v) :=
  ⟨rfl, fun _ => ⟨rfl, rfl, rfl⟩,
   fun h => absurd (PyVal.vStr.inj (Option.some.inj h)) (by decide)⟩

theorem wellShaped_chromiumDownloadRecord (d : DownloadRow) :
    WellShaped (chromiumDownloadRecord d) :=
  ⟨rfl, fun h => absurd (PyVal.vStr.inj (Option.some.inj h)) (by decide),
   fun _ => ⟨rfl, rfl, rfl⟩⟩

theorem wellShaped_firefoxVisitRecord (p : PlaceRow) (v : HistVisitRow) :
    WellShaped (firefoxVisitRecord p v) :=
  ⟨rfl, fun _ => ⟨rfl, rfl, rfl⟩,
   fun h => absurd (PyVal.vStr.inj (Option.some.inj h)) (by decide)⟩

theorem wellShaped_firefoxLegacyRecord (d : MozDownloadRow) :
    WellShaped (firefoxLegacyRecord d) :=
  ⟨rfl, fun h => absurd (PyVal.vStr.inj (Option.some.inj h)) (by decide),
   fun _ => ⟨rfl, rfl, rfl⟩⟩

theorem wellShaped_firefoxModernRecord (row : ModernRow) :
    WellShaped (firefoxModernRecord row) :=
  ⟨rfl, fun h => absurd (PyVal.vStr.inj (Option.some.inj h)) (by decide),
   fun _ => ⟨rfl, rfl, rfl⟩⟩

/-- C1: every record produced by either extractor, on any pass, has exactly
the nine fields `Type, URL, Title, Visit Count, Last Visit (UTC),
Visit Time (UTC), Download Path, Download Size (bytes), Referrer` in that
order, and the fields not meaningful for the record's `Type` hold an empty
value rather than being omitted. -/
theorem records_have_fixed_shape :
    (∀ (db : ChromiumDb), ∀ r ∈ parse_chromium db, WellShaped r) ∧
    (∀ (db : FirefoxDb), ∀ r ∈ parse_firefox db, WellShaped r) := by
  constructor
  · intro db r hr
    rw [parse_chromium] at hr
    rcases List.mem_append.mp hr with h | h
    · rw [chromiumHistoryPass] at h
      rcases List.mem_map.mp h with ⟨p, _, rfl⟩
      exact wellShaped_chromiumVisitRecord p.1 p.2
    · cases hdl : db.downloads with
      | none => simp [chromiumDownloadsPass, hdl] at h
      | some ds =>
        rw [chromiumDownloadsPass, hdl] at h
        rcases List.mem_map.mp h with ⟨d, _, rfl⟩
        exact wellShaped_chromiumDownloadRecord d
  · intro db r hr
    rw [parse_firefox] at hr
    rcases List.mem_append.mp hr with h | h
    · rcases List.mem_append.mp h with h | h
      · rw [firefoxHistoryPass] at h
        rcases List.mem_map.mp h with ⟨p, _, rfl⟩
        exact wellShaped_firefoxVisitRecord p.1 p.2
      · cases hdl : db.moz_downloads with
        | none => simp [firefoxLegacyPass, hdl] at h
        | some ds =>
          rw [firefoxLegacyPass, hdl] at h
          rcases List.mem_map.mp h with ⟨d, _, rfl⟩
          exact wellShaped_firefoxLegacyRecord d
    · rw [firefoxModernPass] at h
      rcases List.mem_map.mp h with ⟨row, _, rfl⟩
      exact wellShaped_firefoxModernRecord row

/-- C1 witness: the shape invariant at a concrete record of a concrete
artifact. -/
theorem records_have_fixed_shape_witness :
    WellShaped (chromiumVisitRecord
      ⟨1, some "http://a", none, some 2, some 0⟩ ⟨1, some 13212076800000000⟩) :=
  records_have_fixed_shape.1
    ⟨some [⟨1, some "http://a", none, some 2, some 0⟩],
     some [⟨1, some 13212076800000000⟩], none⟩
    (chromiumVisitRecord ⟨1, some "http://a", none, some 2, some 0⟩
      ⟨1, some 13212076800000000⟩)
    (by decide)

/-- C2: for every table-name set, detection returns Chromium when the set
contains `urls` and `visits` (even when the Firefox tables are present —
the rules are checked in priority order), else Firefox when it contains
`moz_places` and `moz_historyvisits`, else Unknown. -/
theorem detect_browser_priority : ∀ (tables : List String),
    (("urls" ∈ tables ∧ "visits" ∈ tables) → detect_browser tables = some "chromium") ∧
    (¬ ("urls" ∈ tables ∧ "visits" ∈ tables) →
      ("moz_places" ∈ tables ∧ "moz_historyvisits" ∈ tables) →
      detect_browser tables = some "firefox") ∧
    (¬ ("urls" ∈ tables ∧ "visits" ∈ tables) →
      ¬ ("moz_places" ∈ tables ∧ "moz_historyvisits" ∈ tables) →
      detect_browser tables = none) := by
  intro tables
  refine ⟨fun h => ?_, fun h1 h2 => ?_, fun h1 h2 => ?_⟩ <;> simp [detect_browser, *]

/-- C2 witness: the three detection outcomes at concrete table sets,
including a set containing both layouts' tables. -/
theorem detect_browser_priority_witness :
    detect_browser ["urls", "visits", "moz_places", "moz_historyvisits"] = some "chromium" ∧
    detect_browser ["moz_places", "moz_historyvisits"] = some "firefox" ∧
    detect_browser ["unrelated_table"] = none :=
  ⟨(detect_browser_priority _).1 (by decide),
   (detect_browser_priority _).2.1 (by decide) (by decide),
   (detect_browser_priority _).2.2 (by decide) (by decide)⟩

/-- C3: for either timestamp conversion, a falsy input (None, zero, empty
string, ...) yields the absence value; a truthy input that fails — a
non-numeric value (`TypeError` inside the `try`) or an instant outside the
formatter's range (`OverflowError`/`ValueError`) — also yields the absence
value.  Both conversions are total functions into `Option String`, so
neither ever raises to its caller. -/
theorem timestamp_conversion_tolerance :
    (∀ v : PyVal, v.truthy = false →
       chrome_time_to_datetime v = none ∧ firefox_time_to_datetime v = none) ∧
    (∀ s : String, chrome_time_to_datetime (PyVal.vStr s) = none ∧
       firefox_time_to_datetime (PyVal.vStr s) = none) ∧
    (∀ n : Int, ((n - BROWSER_TIME_OFFSET_MICROSECONDS).fdiv 1000000 < -62135596800 ∨
        253402300799 < (n - BROWSER_TIME_OFFSET_MICROSECONDS).fdiv 1000000) →
       chrome_time_to_datetime (PyVal.vInt n) = none) ∧
    (∀ n : Int, (n.fdiv 1000000 < -62135596800 ∨ 253402300799 < n.fdiv 1000000) →
       firefox_time_to_datetime (PyVal.vInt n) = none) := by
  refine ⟨?_, ?_, ?_, ?_⟩
  · intro v hv
    constructor <;> simp [chrome_time_to_datetime, firefox_time_to_datetime, hv]
  · intro s
    constructor <;>
      simp [chrome_time_to_datetime, firefox_time_to_datetime, PyVal.toIntLike]
  · intro n h
    simp only [chrome_time_to_datetime, PyVal.toIntLike, utcfromtimestampFmt]
    split_ifs with h1 h2
    · exact absurd h2 (by omega)
    · rfl
    · rfl
  · intro n h
    simp only [firefox_time_to_datetime, PyVal.toIntLike, utcfromtimestampFmt,
      FIREFOX_TIME_DIVISOR]
    split_ifs with h1 h2
    · exact absurd h2 (by omega)
    · rfl
    · rfl

/-- C3 witness: both converters at a null, a zero, a non-numeric, and an
out-of-range input. -/
theorem timestamp_conversion_tolerance_witness :
    (chrome_time_to_datetime PyVal.vNone = none ∧
      firefox_time_to_datetime PyVal.vNone = none) ∧
    (chrome_time_to_datetime (PyVal.vInt 0) = none ∧
      firefox_time_to_datetime (PyVal.vInt 0) = none) ∧
    (chrome_time_to_datetime (PyVal.vStr "oops") = none ∧
      firefox_time_to_datetime (PyVal.vStr "oops") = none) ∧
    chrome_time_to_datetime (PyVal.vInt (-70000000000000000)) = none ∧
    firefox_time_to_datetime (PyVal.vInt (-100000000000000000)) = none :=
  ⟨timestamp_conversion_tolerance.1 PyVal.vNone (by decide),
   timestamp_conversion_tolerance.1 (PyVal.vInt 0) (by decide),
   timestamp_conversion_tolerance.2.1 "oops",
   timestamp_conversion_tolerance.2.2.1 (-70000000000000000) (by decide),
   timestamp_conversion_tolerance.2.2.2 (-100000000000000000) (by decide)⟩

/-- C4: a truthy integer input that converts successfully is rendered as the
instant lying `T - 11,644,473,600,000,000` microseconds (Chromium variant)
or `T` microseconds (Firefox variant) after the Unix epoch, at second
precision (the floor of the microsecond count divided by 1,000,000),
formatted by the fixed UTC display format. -/
theorem conversion_formats_the_instant :
    ∀ (n : Int) (r : String), n ≠ 0 →
    (chrome_time_to_datetime (PyVal.vInt n) = some r →
       r = formatUTC ((n - BROWSER_TIME_OFFSET_MICROSECONDS).fdiv 1000000)) ∧
    (firefox_time_to_datetime (PyVal.vInt n) = some r →
       r = formatUTC (n.fdiv 1000000)) := by
  intro n r hn
  have ht : (PyVal.vInt n).truthy = true := by simp [PyVal.truthy, hn]
  constructor
  · intro h
    simp only [chrome_time_to_datetime, PyVal.toIntLike, utcfromtimestampFmt, ht,
      if_true] at h
    split_ifs at h
    exact (Option.some.inj h).symm
  · intro h
    simp only [firefox_time_to_datetime, PyVal.toIntLike, utcfromtimestampFmt,
      FIREFOX_TIME_DIVISOR, ht, if_true] at h
    split_ifs at h
    exact (Option.some.inj h).symm

/-- C4 witness: the Chromium and Firefox conversions at concrete
successfully-converting timestamps. -/
theorem conversion_formats_the_instant_witness :
    (13212076800000000 : Int) ≠ 0 ∧
    chrome_time_to_datetime (PyVal.vInt 13212076800000000) =
      some "9/4/2019  1:20:00 PM UTC" ∧
    "9/4/2019  1:20:00 PM UTC" =
      formatUTC (((13212076800000000 : Int) - BROWSER_TIME_OFFSET_MICROSECONDS).fdiv 1000000) ∧
    firefox_time_to_datetime (PyVal.vInt 1690000000000000) =
      some "7/22/2023  4:26:40 AM UTC" ∧
    "7/22/2023  4:26:40 AM UTC" = formatUTC ((1690000000000000 : Int).fdiv 1000000) :=
  ⟨by decide, by decide,
   (conversion_formats_the_instant 13212076800000000 "9/4/2019  1:20:00 PM UTC"
     (by decide)).1 (by decide),
   by decide,
   (conversion_formats_the_instant 1690000000000000 "7/22/2023  4:26:40 AM UTC"
     (by decide)).2 (by decide)⟩

/-- C5: the extractors are a fixed concatenation of their passes; a pass
whose table is absent (the modelled query failure) contributes zero records
while every other pass still contributes; in particular a Chromium artifact
with a history table but no downloads table yields only Visit records. -/
theorem passes_are_independent :
    (∀ db : ChromiumDb, parse_chromium db =
       chromiumHistoryPass db ++ chromiumDownloadsPass db) ∧
    (∀ db : ChromiumDb, db.downloads = none →
       chromiumDownloadsPass db = [] ∧ parse_chromium db = chromiumHistoryPass db) ∧
    (∀ db : ChromiumDb, (db.urls = none ∨ db.visits = none) →
       chromiumHistoryPass db = [] ∧ parse_chromium db = chromiumDownloadsPass db) ∧
    (∀ db : FirefoxDb, parse_firefox db =
       firefoxHistoryPass db ++ firefoxLegacyPass db ++ firefoxModernPass db) ∧
    (∀ db : FirefoxDb, db.moz_downloads = none → firefoxLegacyPass db = []) ∧
    (∀ db : FirefoxDb, (db.moz_places = none ∨ db.moz_historyvisits = none) →
       firefoxHistoryPass db = []) ∧
    (∀ db : FirefoxDb, (db.moz_places = none ∨ db.moz_annos = none ∨
        db.moz_anno_attributes = none) → firefoxModernPass db = []) ∧
    (∀ db : ChromiumDb, db.downloads = none →
       ∀ r ∈ parse_chromium db, fieldVal r "Type" = some (PyVal.vStr "Visit")) := by
  refine ⟨fun db => rfl, ?_, ?_, fun db => rfl, ?_, ?_, ?_, ?_⟩
  · intro db h
    have hd : chromiumDownloadsPass db = [] := by
      unfold chromiumDownloadsPass
      rw [h]
    exact ⟨hd, by rw [parse_chromium, hd, List.append_nil]⟩
  · intro db h
    have hh : chromiumHistoryPass db = [] := by
      unfold chromiumHistoryPass chromiumHistoryRows
      rcases h with h | h
      · rw [h]; cases db.visits <;> rfl
      · rw [h]; cases db.urls <;> rfl
    exact ⟨hh, by rw [parse_chromium, hh, List.nil_append]⟩
  · intro db h
    unfold firefoxLegacyPass
    rw [h]
  · intro db h
    unfold firefoxHistoryPass firefoxHistoryRows
    rcases h with h | h
    · rw [h]; cases db.moz_historyvisits <;> rfl
    · rw [h]; cases db.moz_places <;> rfl
  · intro db h
    unfold firefoxModernPass firefoxModernRows
    rcases h with h | h | h
    · rw [h]
      cases db.moz_annos <;> cases db.moz_anno_attributes <;> rfl
    · rw [h]
      cases db.moz_places <;> cases db.moz_anno_attributes <;> rfl
    · rw [h]
      cases db.moz_places <;> cases db.moz_annos <;> rfl
  · intro db h r hr
    have hd : chromiumDownloadsPass db = [] := by
      unfold chromiumDownloadsPass
      rw [h]
    rw [parse_chromium, hd, List.append_nil, chromiumHistoryPass] at hr
    rcases List.mem_map.mp hr with ⟨p, _, rfl⟩
    rfl

/-- C5 witness: a Chromium artifact with a history table and no downloads
table yields exactly its Visit records. -/
theorem passes_are_independent_witness :
    parse_chromium ⟨some [⟨1, some "http://a", none, some 2, some 0⟩],
        some [⟨1, some 13212076800000000⟩], none⟩ =
      chromiumHistoryPass ⟨some [⟨1, some "http://a", none, some 2, some 0⟩],
        some [⟨1, some 13212076800000000⟩], none⟩ ∧
    firefoxLegacyPass ⟨some [], some [], none, some [], some []⟩ = [] ∧
    firefoxModernPass ⟨some [], some [], none, none, some []⟩ = [] ∧
    fieldVal (chromiumVisitRecord ⟨1, some "http://a", none, some 2, some 0⟩
        ⟨1, some 13212076800000000⟩) "Type" = some (PyVal.vStr "Visit") :=
  ⟨(passes_are_independent.2.1
      ⟨some [⟨1, some "http://a", none, some 2, some 0⟩],
       some [⟨1, some 13212076800000000⟩], none⟩ rfl).2,
   passes_are_independent.2.2.2.2.1 ⟨some [], some [], none, some [], some []⟩ rfl,
   passes_are_independent.2.2.2.2.2.2.1 ⟨some [], some [], none, none, some []⟩
     (Or.inr (Or.inl rfl)),
   passes_are_independent.2.2.2.2.2.2.2
     ⟨some [⟨1, some "http://a", none, some 2, some 0⟩],
      some [⟨1, some 13212076800000000⟩], none⟩ rfl _ (by decide)⟩

/-- C8: in both history passes the emitted Visit records are the row-by-row
image of the joined rows, whose visit timestamps are ordered descending
(most recent first; SQL NULLs, which sort below every value, last). -/
theorem history_ordered_descending :
    (∀ db : ChromiumDb,
       chromiumHistoryPass db =
         (chromiumHistoryRows db).map (fun p => chromiumVisitRecord p.1 p.2) ∧
       ((chromiumHistoryRows db).map (fun p => p.2.visit_time)).Pairwise
         (fun a b => oge a b = true)) ∧
    (∀ db : FirefoxDb,
       firefoxHistoryPass db =
         (firefoxHistoryRows db).map (fun p => firefoxVisitRecord p.1 p.2) ∧
       ((firefoxHistoryRows db).map (fun p => p.2.visit_date)).Pairwise
         (fun a b => oge a b = true)) := by
  constructor
  · intro db
    refine ⟨rfl, ?_⟩
    rw [List.pairwise_map]
    unfold chromiumHistoryRows
    cases db.urls with
    | none => simp
    | some us =>
      cases db.visits with
      | none => simp
      | some vs =>
        exact pairwise_sortBy _
          (fun (a b : UrlRow × VisitRow) => oge_total a.2.visit_time b.2.visit_time)
          (fun (x y z : UrlRow × VisitRow) =>
            oge_trans x.2.visit_time y.2.visit_time z.2.visit_time) _
  · intro db
    refine ⟨rfl, ?_⟩
    rw [List.pairwise_map]
    unfold firefoxHistoryRows
    cases db.moz_places with
    | none => simp
    | some ps =>
      cases db.moz_historyvisits with
      | none => simp
      | some vs =>
        exact pairwise_sortBy _
          (fun (a b : PlaceRow × HistVisitRow) => oge_total a.2.visit_date b.2.visit_date)
          (fun (x y z : PlaceRow × HistVisitRow) =>
            oge_trans x.2.visit_date y.2.visit_date z.2.visit_date) _

theorem dictGet_not_mem (kvs : List (String × PyVal)) (k : String) (d : PyVal)
    (h : ∀ p ∈ kvs, p.1 ≠ k) : dictGet kvs k d = d := by
  unfold dictGet
  have hf : kvs.reverse.find? (fun p => p.1 == k) = none :=
    List.find?_eq_none.mpr (fun x hx => by
      simpa using h x (List.mem_reverse.mp hx))
  rw [hf]

/-- C6: in the modern downloads pass every matching row yields exactly one
record; when the metadata blob fails to parse both recovered fields default
(`""`), when it parses but lacks `fileSize` or `startTime` the corresponding
field defaults (`""` / `0`); and the start time is converted with the
Firefox variant exactly when the recovered value is truthy, the field being
left empty otherwise. -/
theorem modern_metadata_tolerance :
    (∀ db : FirefoxDb, firefoxModernPass db =
       (firefoxModernRows db).map firefoxModernRecord) ∧
    (∀ (meta : Option String) (s : String), meta = some s → s ≠ "" →
       parseMetaObj s = none →
       modernMetaFields meta = (PyVal.vStr "", PyVal.vStr "")) ∧
    (∀ (meta : Option String) (s : String) (kvs : List (String × PyVal)),
       meta = some s → s ≠ "" → parseMetaObj s = some kvs →
       ((∀ p ∈ kvs, p.1 ≠ "fileSize") → (modernMetaFields meta).1 = PyVal.vStr "") ∧
       ((∀ p ∈ kvs, p.1 ≠ "startTime") → (modernMetaFields meta).2 = PyVal.vInt 0)) ∧
    (∀ row : ModernRow,
       fieldVal (firefoxModernRecord row) "Visit Time (UTC)" =
         some (if (modernMetaFields row.meta_json).2.truthy
           then ovStr (firefox_time_to_datetime (modernMetaFields row.meta_json).2)
           else PyVal.vStr "") ∧
       fieldVal (firefoxModernRecord row) "Download Size (bytes)" =
         some (modernMetaFields row.meta_json).1) := by
  refine ⟨fun db => rfl, ?_, ?_, fun row => ⟨rfl, rfl⟩⟩
  · intro meta s hm hs hp
    subst hm
    simp [modernMetaFields, hs, hp]
  · intro meta s kvs hm hs hp
    subst hm
    have hm2 : modernMetaFields (some s) =
        (dictGet kvs "fileSize" (PyVal.vStr ""), dictGet kvs "startTime" (PyVal.vInt 0)) := by
      simp [modernMetaFields, hs, hp]
    rw [hm2]
    exact ⟨fun h => dictGet_not_mem kvs "fileSize" _ h,
      fun h => dictGet_not_mem kvs "startTime" _ h⟩

/-- C6 witness: an unparseable blob and a parseable blob lacking both keys,
and the emitted record's gated fields at a concrete row. -/
theorem modern_metadata_tolerance_witness :
    modernMetaFields (some "not json") = (PyVal.vStr "", PyVal.vStr "") ∧
    (modernMetaFields (some "\x7b\"other\": 1\x7d")).1 = PyVal.vStr "" ∧
    (modernMetaFields (some "\x7b\"other\": 1\x7d")).2 = PyVal.vInt 0 ∧
    fieldVal (firefoxModernRecord ⟨some "http://x", some "file:///a", some "not json"⟩)
      "Visit Time (UTC)" = some (PyVal.vStr "") :=
  ⟨modern_metadata_tolerance.2.1 (some "not json") "not json" rfl (by decide) (by decide),
   (modern_metadata_tolerance.2.2.1 (some "\x7b\"other\": 1\x7d") "\x7b\"other\": 1\x7d"
     [("other", PyVal.vInt 1)] rfl (by decide) (by decide)).1 (by decide),
   (modern_metadata_tolerance.2.2.1 (some "\x7b\"other\": 1\x7d") "\x7b\"other\": 1\x7d"
     [("other", PyVal.vInt 1)] rfl (by decide) (by decide)).2 (by decide),
   by rw [(modern_metadata_tolerance.2.2.2
     ⟨some "http://x", some "file:///a", some "not json"⟩).1]; decide⟩

/-- The spec's reading of the modern-pass record: identical to
`firefoxModernRecord` except that the Download Path strips only a leading
`file://` prefix. -/
def firefoxModernRecordLeading (row : ModernRow) : Record :=
  let tbst : PyVal × PyVal := modernMetaFields row.meta_json
  [("Type", PyVal.vStr "Download"),
   ("URL", ovStr row.source_url),
   ("Title", PyVal.vStr ""),
   ("Visit Count", PyVal.vStr ""),
   ("Last Visit (UTC)", PyVal.vStr ""),
   ("Visit Time (UTC)", if tbst.2.truthy then ovStr (firefox_time_to_datetime tbst.2)
     else PyVal.vStr ""),
   ("Download Path", match row.target_path with
     | some t => if t ≠ "" then PyVal.vStr (stripLeadingFileURI t) else PyVal.vStr ""
     | none => PyVal.vStr ""),
   ("Download Size (bytes)", tbst.1),
   ("Referrer", PyVal.vStr "")]

/-- A Firefox artifact whose modern download destination URI contains
`file://` again later in the path. -/
def fileSchemeDb : FirefoxDb :=
  ⟨some [⟨1, some "http://orig/page", none, none, none⟩], some [], none,
   some [⟨1, 1, some "file:///afile://b"⟩,
         ⟨1, 2, some "\x7b\"fileSize\": 2048, \"startTime\": 1690000000000000\x7d"⟩],
   some [⟨1, some "downloads/destinationFileURI"⟩, ⟨2, some "downloads/metaData"⟩]⟩

/-- C7 counterexample: the source removes *every* occurrence of `file://`
(Python `str.replace`), not only a leading prefix, so the pass is not the
row-by-row image of the leading-strip record. -/
theorem modern_path_not_leading_strip :
    ¬ (∀ db : FirefoxDb,
        firefoxModernPass db = (firefoxModernRows db).map firefoxModernRecordLeading) := by
  intro h
  exact absurd (h fileSchemeDb) (by decide)

/-- The spec's concrete modern-downloads example artifact. -/
def modernExampleDb : FirefoxDb :=
  ⟨some [⟨1, some "http://orig/page", none, none, none⟩], some [], none,
   some [⟨1, 1, some "file:///home/user/file.zip"⟩,
         ⟨1, 2, some "\x7b\"fileSize\": 2048, \"startTime\": 1690000000000000\x7d"⟩],
   some [⟨1, some "downloads/destinationFileURI"⟩, ⟨2, some "downloads/metaData"⟩]⟩

/-- C7 (amended): for every emitted modern-pass record the Download Path is
the destination URI with *every* occurrence of `file://` removed (Python
`str.replace`); on the spec's example — whose only occurrence is the leading
one — this yields one Download record with path `/home/user/file.zip`, size
2048, and the correctly converted start time. -/
theorem modern_path_replaces_all :
    (∀ db : FirefoxDb, ∀ row ∈ firefoxModernRows db,
       fieldVal (firefoxModernRecord row) "Download Path" =
         some (match row.target_path with
           | some t => if t ≠ "" then PyVal.vStr (pyReplace t "file://" "")
             else PyVal.vStr ""
           | none => PyVal.vStr "")) ∧
    (parse_firefox modernExampleDb).map (fun r =>
        (fieldVal r "Type", fieldVal r "Download Path",
         fieldVal r "Download Size (bytes)", fieldVal r "Visit Time (UTC)")) =
      [(some (PyVal.vStr "Download"), some (PyVal.vStr "/home/user/file.zip"),
        some (PyVal.vInt 2048), some (PyVal.vStr "7/22/2023  4:26:40 AM UTC"))] ∧
    ovStr (firefox_time_to_datetime (PyVal.vInt 1690000000000000)) =
      PyVal.vStr "7/22/2023  4:26:40 AM UTC" :=
  ⟨fun db row hrow => rfl, by decide, by decide⟩

/-- C7 witness: the replace-all path value at the example artifact's row. -/
theorem modern_path_replaces_all_witness :
    fieldVal (firefoxModernRecord ⟨some "http://orig/page",
        some "file:///home/user/file.zip",
        some "\x7b\"fileSize\": 2048, \"startTime\": 1690000000000000\x7d"⟩)
      "Download Path" = some (PyVal.vStr "/home/user/file.zip") := by
  rw [modern_path_replaces_all.1 modernExampleDb
    ⟨some "http://orig/page", some "file:///home/user/file.zip",
     some "\x7b\"fileSize\": 2048, \"startTime\": 1690000000000000\x7d"⟩ (by decide)]
  decide

theorem flatMap_map_some {β γ : Type} (l : List β) (f : Option β → List γ) :
    (l.map some).flatMap f = l.flatMap (fun b => f (some b)) := by
  induction l with
  | nil => rfl
  | cons b bs ih => simp [ih]

theorem leftJoin_flatMap {β γ : Type} (l : List β) (pred : β → Bool)
    (f : Option β → List γ) (hf : f none = []) :
    (leftJoinList l pred).flatMap f = (l.filter pred).flatMap (fun b => f (some b)) := by
  unfold leftJoinList
  cases h : l.filter pred with
  | nil => simp [hf]
  | cons b bs =>
    show ((b :: bs).map some).flatMap f = (b :: bs).flatMap (fun x => f (some x))
    exact flatMap_map_some (b :: bs) f

theorem filter_flatMap_if {β γ : Type} (l : List β) (p q : β → Bool) (x : γ) :
    (l.filter p).flatMap (fun b => if q b then [x] else []) =
      (l.filter (fun b => p b && q b)).map (fun _ => x) := by
  induction l with
  | nil => rfl
  | cons b bs ih =>
    by_cases hp : p b <;> by_cases hq : q b <;> simp [hp, hq, ih]

theorem meta_leftJoin_eq (annos : List AnnoRow) (attrs : List AnnoAttrRow)
    (pm : AnnoRow → Bool) (row : Option AnnoRow → ModernRow) :
    (leftJoinList annos pm).flatMap (fun dmetaOpt =>
        (match dmetaOpt with
          | none => [(none : Option AnnoAttrRow)]
          | some dmeta => leftJoinList attrs
              (fun t => t.id == dmeta.anno_attribute_id)).flatMap
          (fun ametaOpt =>
            if (match ametaOpt with
                | some ameta => ameta.name == some "downloads/metaData"
                | none => false)
            then [row dmetaOpt] else []))
    = (annos.filter pm).flatMap (fun dmeta =>
        (attrs.filter (fun t => t.id == dmeta.anno_attribute_id &&
            t.name == some "downloads/metaData")).map (fun _ => row (some dmeta))) := by
  rw [leftJoin_flatMap _ _ _ rfl]
  refine List.flatMap_congr ?_
  intro dmeta _
  show (leftJoinList attrs (fun t => t.id == dmeta.anno_attribute_id)).flatMap
      (fun ametaOpt =>
        if (match ametaOpt with
            | some ameta => ameta.name == some "downloads/metaData"
            | none => false)
        then [row (some dmeta)] else []) = _
  rw [leftJoin_flatMap _ _ _ rfl]
  exact filter_flatMap_if attrs _ _ _

/-- A Firefox artifact whose one place has a destination-URI annotation but
no metadata annotation. -/
def destOnlyDb : FirefoxDb :=
  ⟨some [⟨1, some "http://orig/page", none, none, none⟩], some [], none,
   some [⟨1, 1, some "file:///a"⟩],
   some [⟨1, some "downloads/destinationFileURI"⟩]⟩

/-- C10: the modern downloads query's left joins followed by the WHERE
condition on the metadata attribute name (false on a NULL left-join result)
behave exactly as inner joins, so a record is emitted only for places with
*both* annotations; a place with only a destination-URI annotation yields no
record at all. -/
theorem modern_filters_null_metadata :
    (∀ db : FirefoxDb, firefoxModernRows db = firefoxModernRowsInner db) ∧
    firefoxModernPass destOnlyDb = [] := by
  constructor
  · intro db
    unfold firefoxModernRows firefoxModernRowsInner
    cases db.moz_places with
    | none => rfl
    | some ps =>
      cases db.moz_annos with
      | none => rfl
      | some annos =>
        cases db.moz_anno_attributes with
        | none => rfl
        | some attrs =>
          refine List.flatMap_congr ?_
          intro p _
          refine List.flatMap_congr ?_
          intro dfile _
          refine List.flatMap_congr ?_
          intro afile _
          exact meta_leftJoin_eq annos attrs _
            (fun dmetaOpt => ⟨p.url, dfile.content, dmetaOpt.bind (fun dm => dm.content)⟩)
  · decide

/-- C9: for every non-zero timestamp that converts successfully, parsing the
formatted string back recovers the instant at second precision (the floor of
the source microsecond count over 1e6, relative to the proper epoch); a zero
timestamp, and a Chromium timestamp whose shifted instant underflows the
formatter's range, yield the absence value. -/
theorem conversion_roundtrip_second_precision :
    (∀ (n : Int) (r : String), n ≠ 0 →
       chrome_time_to_datetime (PyVal.vInt n) = some r →
       parseFormatted r = some ((n - BROWSER_TIME_OFFSET_MICROSECONDS).fdiv 1000000)) ∧
    (∀ (n : Int) (r : String), n ≠ 0 →
       firefox_time_to_datetime (PyVal.vInt n) = some r →
       parseFormatted r = some (n.fdiv 1000000)) ∧
    chrome_time_to_datetime (PyVal.vInt 0) = none ∧
    firefox_time_to_datetime (PyVal.vInt 0) = none ∧
    (∀ n : Int, (n - BROWSER_TIME_OFFSET_MICROSECONDS).fdiv 1000000 < -62135596800 →
       chrome_time_to_datetime (PyVal.vInt n) = none) := by
  refine ⟨?_, ?_, rfl, rfl, ?_⟩
  · intro n r hn h
    have ht : (PyVal.vInt n).truthy = true := by simp [PyVal.truthy, hn]
    simp only [chrome_time_to_datetime, PyVal.toIntLike, utcfromtimestampFmt, ht,
      if_true] at h
    split_ifs at h with hr
    rw [← Option.some.inj h]
    exact parseFormatted_formatUTC _ hr.1 hr.2
  · intro n r hn h
    have ht : (PyVal.vInt n).truthy = true := by simp [PyVal.truthy, hn]
    simp only [firefox_time_to_datetime, PyVal.toIntLike, utcfromtimestampFmt,
      FIREFOX_TIME_DIVISOR, ht, if_true] at h
    split_ifs at h with hr
    rw [← Option.some.inj h]
    exact parseFormatted_formatUTC _ hr.1 hr.2
  · intro n h
    simp only [chrome_time_to_datetime, PyVal.toIntLike, utcfromtimestampFmt]
    split_ifs with h1 h2
    · exact absurd h2 (by omega)
    · rfl
    · rfl

/-- C9 witness: the round trip at concrete Chromium and Firefox timestamps,
and the absence value at a negative-overflow Chromium timestamp. -/
theorem conversion_roundtrip_second_precision_witness :
    parseFormatted "9/4/2019  1:20:00 PM UTC" =
      some (((13212076800000000 : Int) - BROWSER_TIME_OFFSET_MICROSECONDS).fdiv 1000000) ∧
    parseFormatted "7/22/2023  4:26:40 AM UTC" = some ((1690000000000000 : Int).fdiv 1000000) ∧
    chrome_time_to_datetime (PyVal.vInt (-70000000000000000)) = none :=
  ⟨conversion_roundtrip_second_precision.1 13212076800000000 "9/4/2019  1:20:00 PM UTC"
     (by decide) (by decide),
   conversion_roundtrip_second_precision.2.1 1690000000000000 "7/22/2023  4:26:40 AM UTC"
     (by decide) (by decide),
   conversion_roundtrip_second_precision.2.2.2.2 (-70000000000000000) (by decide)⟩
